import Mathlib

/-!
Shallow embedding of the FlashMind store and scheduler (src/db.ts).

JS numbers are modelled as `Rat` (for `ease_factor` and the SM-2
arithmetic) and `Int` (timestamps in epoch milliseconds, intervals in
days, ratings); `Uint8Array` image buffers as `List Nat` of byte values;
SQLite rows as Lean structures and the database as lists of rows together
with the AUTOINCREMENT counters.  Fallible operations (JS `throw`)
return `Except` / carry an `Option DBError`.
-/

/-- A row of the `decks` table (src/db.ts `createTables`). -/
structure DeckRow where
  id : Nat
  name : String
  description : String
  created_at : Int
  deriving DecidableEq, Repr

/-- A row of the `cards` table (src/db.ts `createTables`). -/
structure CardRow where
  id : Nat
  deck_id : Nat
  front_text : String
  front_image : Option (List Nat)
  back_text : String
  back_image : Option (List Nat)
  created_at : Int
  next_review_due : Int
  interval : Int
  ease_factor : Rat
  reviews : Nat
  deriving DecidableEq, Repr

/-- A row of the `logs` table (src/db.ts `createTables`). -/
structure LogRow where
  id : Nat
  card_id : Nat
  rating : Int
  reviewed_at : Int
  deriving DecidableEq, Repr

/-- The whole SQLite database: the three tables plus the AUTOINCREMENT
sequence counters (SQLite rowids start at 1). -/
structure DBState where
  decks : List DeckRow
  cards : List CardRow
  logs : List LogRow
  nextDeckId : Nat
  nextCardId : Nat
  nextLogId : Nat
  deriving DecidableEq, Repr

/-- A freshly created, empty database (`createTables` on a new file). -/
def DBState.empty : DBState := ⟨[], [], [], 1, 1, 1⟩

/-- The errors thrown by src/db.ts and by the underlying engine/runtime. -/
inductive DBError where
  /-- importDeck: JSON.parse failed ("Ungültiges Dateiformat"). -/
  | formatInvalid
  /-- importDeck: missing/falsy `name` or `cards` not an array
      ("Ungültige Stapel-Daten"). -/
  | formatInvalidDeck
  /-- exportDeck: "Deck not found". -/
  | deckNotFound
  /-- SQLite: FOREIGN KEY constraint failed (PRAGMA foreign_keys = ON). -/
  | fkViolation
  /-- window.atob: InvalidCharacterError on a malformed base64 string. -/
  | invalidChar
  /-- The spec's NotFoundError taxonomy entry (no operation in src/db.ts
      ever constructs it; it exists so its absence can be stated). -/
  | notFound
  deriving DecidableEq, Repr

/-- JS string truthiness: `undefined`/`null`/`""` are falsy. -/
def jsTruthyStr : Option String → Bool
  | some s => !(s == "")
  | none => false

/-- JS `Math.round`: round half toward positive infinity. -/
def jsRound (x : Rat) : Int := ⌊x + 1 / 2⌋

/-- `createDeck` (src/db.ts lines 152-159): unconditionally INSERTs the
deck with the current timestamp and returns `last_insert_rowid()`. -/
def createDeck (name description : String) (now : Int) (s : DBState) :
    Nat × DBState :=
  (s.nextDeckId,
   { s with
       decks := s.decks ++ [⟨s.nextDeckId, name, description, now⟩],
       nextDeckId := s.nextDeckId + 1 })

/-- `deleteDeck` (src/db.ts lines 161-165): `DELETE FROM decks WHERE id = ?`
with `PRAGMA foreign_keys = ON`; the `ON DELETE CASCADE` clauses of
`createTables` remove the cards of each deleted deck row and then the
logs of each deleted card row. -/
def deleteDeck (id : Nat) (s : DBState) : DBState :=
  let deletedDecks := s.decks.filter (fun d => d.id == id)
  let deletedCards :=
    s.cards.filter (fun c => deletedDecks.any (fun d => d.id == c.deck_id))
  { s with
      decks := s.decks.filter (fun d => !(d.id == id)),
      cards :=
        s.cards.filter
          (fun c => !(deletedDecks.any (fun d => d.id == c.deck_id))),
      logs :=
        s.logs.filter
          (fun l => !(deletedCards.any (fun c => c.id == l.card_id))) }

/-- `createCard` (src/db.ts lines 284-307): INSERT with default scheduling
state; with `PRAGMA foreign_keys = ON` the engine rejects the INSERT when
`deck_id` references no deck row.  `card.front_text || ''` maps a missing
text to the empty string; images pass through (`|| null`). -/
def createCard (deck_id : Nat) (front_text : Option String)
    (front_image : Option (List Nat)) (back_text : Option String)
    (back_image : Option (List Nat)) (now : Int) (s : DBState) :
    Except DBError DBState :=
  if s.decks.any (fun d => d.id == deck_id) then
    .ok { s with
            cards := s.cards ++
              [⟨s.nextCardId, deck_id, front_text.getD "", front_image,
                back_text.getD "", back_image, now, now, 0, 5 / 2, 0⟩],
            nextCardId := s.nextCardId + 1 }
  else
    .error .fkViolation

/-- The SM-2 update inlined in `reviewCard` (src/db.ts lines 352-383):
from `(rating, interval, ease_factor, reviews)` to the new
`(interval, ease_factor)`. -/
def sm2Step (rating : Int) (interval : Int) (ease_factor : Rat)
    (reviews : Nat) : Int × Rat :=
  if rating = 1 then
    (0, max (13 / 10 : Rat) (ease_factor - 2 / 10))
  else
    let newInterval : Int :=
      if reviews = 0 then 1
      else if reviews = 1 then 6
      else jsRound ((interval : Rat) * ease_factor)
    let q : Rat :=
      if rating = 2 then 3 else if rating = 3 then 4
      else if rating = 4 then 5 else 0
    let ef := ease_factor + (1 / 10 - (5 - q) * (8 / 100 + (5 - q) * 2 / 100))
    (newInterval, if ef < 13 / 10 then 13 / 10 else ef)

/-- `reviewCard` (src/db.ts lines 335-404): loads the card (silently
returning when the SELECT is empty), applies the SM-2 update, UPDATEs the
row (`reviews = reviews + 1`) and INSERTs one log row.  The function has
no throw path; `Except.ok` models its normal resolution. -/
def reviewCard (cardId : Nat) (rating : Int) (now : Int) (s : DBState) :
    Except DBError DBState :=
  match s.cards.find? (fun c => c.id == cardId) with
  | none => .ok s
  | some c =>
    let r := sm2Step rating c.interval c.ease_factor c.reviews
    let next_review_due := now + r.1 * 86400000
    .ok { s with
            cards := s.cards.map (fun x =>
              if x.id == cardId then
                { x with
                    next_review_due := next_review_due,
                    interval := r.1,
                    ease_factor := r.2,
                    reviews := x.reviews + 1 }
              else x),
            logs := s.logs ++ [⟨s.nextLogId, cardId, rating, now⟩],
            nextLogId := s.nextLogId + 1 }

/-- `getCards` (src/db.ts lines 253-266): `SELECT * FROM cards WHERE
deck_id = ?`. -/
def getCards (deckId : Nat) (s : DBState) : List CardRow :=
  s.cards.filter (fun c => c.deck_id == deckId)

/-! ### Base64 codec

`u8ToBase64` concatenates the bytes into a latin-1 binary string (the
chunked `String.fromCharCode` loop) and calls `window.btoa`; `base64ToU8`
calls `window.atob` and reads the char codes back.  Since byte values and
latin-1 char codes are in bijection, the composites are standard base64
over the byte sequence, modelled here on `List Nat`/`List Char`.
`window.atob` throws `InvalidCharacterError` on input that is not a
(padded) base64 string. -/

/-- The base64 alphabet. -/
def b64Alphabet : List Char :=
  "ABCDEFGHIJKLMNOPQRSTUVWXYZabcdefghijklmnopqrstuvwxyz0123456789+/".toList

/-- The character encoding a 6-bit value. -/
def b64chr (n : Nat) : Char := b64Alphabet.getD n 'A'

/-- The 6-bit value of a base64 character, `none` for a character outside
the alphabet. -/
def b64idx (c : Char) : Option Nat := b64Alphabet.findIdx? (fun x => x == c)

/-- Base64 encoding of a byte sequence (what `window.btoa` produces on the
latin-1 string of the bytes): 3 bytes become 4 characters, a 1- or 2-byte
tail is padded with `=`. -/
def b64encode : List Nat → List Char
  | [] => []
  | [a] => [b64chr (a / 4), b64chr (a % 4 * 16), '=', '=']
  | [a, b] =>
      [b64chr (a / 4), b64chr (a % 4 * 16 + b / 16), b64chr (b % 16 * 4), '=']
  | a :: b :: c :: rest =>
      b64chr (a / 4) :: b64chr (a % 4 * 16 + b / 16) ::
        b64chr (b % 16 * 4 + c / 64) :: b64chr (c % 64) :: b64encode rest

/-- Base64 decoding (what `window.atob` computes, read back as char
codes): `none` models the thrown `InvalidCharacterError` (bad length,
character outside the alphabet, or misplaced padding). -/
def b64decode : List Char → Option (List Nat)
  | [] => some []
  | c1 :: c2 :: c3 :: c4 :: rest =>
    match b64idx c1, b64idx c2 with
    | some s1, some s2 =>
      if c3 == '=' then
        if c4 == '=' && rest.isEmpty then some [s1 * 4 + s2 / 16] else none
      else
        match b64idx c3 with
        | some s3 =>
          if c4 == '=' then
            if rest.isEmpty then
              some [s1 * 4 + s2 / 16, s2 % 16 * 16 + s3 / 4]
            else none
          else
            match b64idx c4 with
            | some s4 =>
              match b64decode rest with
              | some bs =>
                  some ((s1 * 4 + s2 / 16) :: (s2 % 16 * 16 + s3 / 4) ::
                    (s3 % 4 * 64 + s4) :: bs)
              | none => none
            | none => none
        | none => none
    | _, _ => none
  | _ => none

/-- `u8ToBase64` (src/db.ts lines 102-111). -/
def u8ToBase64 (u8 : List Nat) : String := String.mk (b64encode u8)

/-- `base64ToU8` (src/db.ts lines 113-121); the error is `window.atob`
throwing on malformed input. -/
def base64ToU8 (base64 : String) : Except DBError (List Nat) :=
  match b64decode base64.toList with
  | some bs => .ok bs
  | none => .error .invalidChar

/-! ### Export / import -/

/-- One entry of the `cards` array of a bundle document.  `none` models a
JSON `null` or absent key. -/
structure BundleCard where
  front_text : Option String
  back_text : Option String
  front_image : Option String
  back_image : Option String
  deriving DecidableEq, Repr

/-- The document `exportDeck` builds (src/db.ts lines 182-193). -/
structure ExportDoc where
  name : String
  description : String
  version : Nat
  exported_at : Int
  cards : List BundleCard
  deriving DecidableEq, Repr

/-- A parsed JSON document as `importDeck` inspects it: `name` may be
absent, and `cards` is `some` exactly when the key holds an array. -/
structure ImportDoc where
  name : Option String
  description : Option String
  cards : Option (List BundleCard)
  deriving DecidableEq, Repr

/-- `JSON.stringify` of an `ExportDoc` followed by `JSON.parse` yields a
document with the same fields (ignoring `version`/`exported_at`, which
`importDeck` never reads). -/
def docOfExport (e : ExportDoc) : ImportDoc :=
  { name := some e.name, description := some e.description,
    cards := some e.cards }

/-- `c.front_image ? u8ToBase64(c.front_image) : null` in `exportDeck`:
a `Uint8Array` is truthy even when empty, so any stored buffer is
encoded. -/
def exportImage (img : Option (List Nat)) : Option String :=
  match img with
  | some bs => some (u8ToBase64 bs)
  | none => none

/-- The bundle entry `exportDeck` builds for one card (the mapped object
literal in src/db.ts lines 187-192). -/
def exportBundleCard (c : CardRow) : BundleCard :=
  { front_text := some c.front_text,
    back_text := some c.back_text,
    front_image := exportImage c.front_image,
    back_image := exportImage c.back_image }

/-- `exportDeck` (src/db.ts lines 169-196).  `deckDesc || ""` is the
identity on the (always non-null) stored description strings. -/
def exportDeck (id : Nat) (now : Int) (s : DBState) :
    Except DBError ExportDoc :=
  match s.decks.find? (fun d => d.id == id) with
  | none => .error .deckNotFound
  | some d =>
    .ok { name := d.name,
          description := d.description,
          version := 1,
          exported_at := now,
          cards := (getCards id s).map exportBundleCard }

/-- `card.front_image ? this.base64ToU8(card.front_image) : null` in the
insertion loop of importDeck: an absent/null/empty string is falsy and
yields NULL, any other string is decoded (and may throw). -/
def importImage (img : Option String) : Except DBError (Option (List Nat)) :=
  match img with
  | some str => if str == "" then .ok none else (base64ToU8 str).map some
  | none => .ok none

/-- The card row the import loop INSERTs (src/db.ts lines 227-238):
fresh default scheduling state, due immediately. -/
def importCardRow (deckId : Nat) (now : Int) (cardId : Nat) (c : BundleCard)
    (fi bi : Option (List Nat)) : CardRow :=
  ⟨cardId, deckId, c.front_text.getD "", fi, c.back_text.getD "", bi,
   now, now, 0, 5 / 2, 0⟩

/-- The `for (const card of data.cards)` insertion loop inside the
transaction of `importDeck`: the first failing decode aborts the loop and
the error propagates. -/
def insertImportCards (deckId : Nat) (now : Int) :
    List BundleCard → DBState → Except DBError DBState
  | [], s => .ok s
  | c :: rest, s =>
    match importImage c.front_image with
    | .error e => .error e
    | .ok fi =>
      match importImage c.back_image with
      | .error e => .error e
      | .ok bi =>
        insertImportCards deckId now rest
          { s with
              cards := s.cards ++ [importCardRow deckId now s.nextCardId c fi bi],
              nextCardId := s.nextCardId + 1 }

/-- `importDeck` (src/db.ts lines 198-249).  The input is the parse
result of the JSON text (`none` = `JSON.parse` threw).  The deck is
created by a `createDeck` call *before* `BEGIN TRANSACTION`; on a failure
inside the card loop the `ROLLBACK` restores the state the transaction
began with — the state right after `createDeck` — and the error is
re-thrown.  The result pairs the final state with the error, if any. -/
def importDeck (input : Option ImportDoc) (now : Int) (s : DBState) :
    DBState × Option DBError :=
  match input with
  | none => (s, some .formatInvalid)
  | some data =>
    if !(jsTruthyStr data.name) || data.cards.isNone then
      (s, some .formatInvalidDeck)
    else
      let res := createDeck ((data.name.getD "") ++ " (Import)")
        (data.description.getD "") now s
      match insertImportCards res.1 now (data.cards.getD []) res.2 with
      | .ok s2 => (s2, none)
      | .error e => (res.2, some e)

/-! ### Spec-side definitions -/

/-- Round half away from zero, the tie-break the spec mandates for
`interval × ease_factor` (spec §4.1).  Stated from the spec's words, to be
compared with the code's `Math.round`. -/
def roundHalfAwayFromZero (x : Rat) : Int :=
  if 0 ≤ x then ⌊x + 1 / 2⌋ else ⌈x - 1 / 2⌉

/-! ### Scheduler lemmas -/

theorem ease_clamp_ge (x : Rat) :
    (13 / 10 : Rat) ≤ if x < 13 / 10 then 13 / 10 else x := by
  split_ifs with h
  · exact le_refl _
  · exact not_lt.mp h

theorem sm2Step_ease_ge (rating : Int) (interval : Int) (ease_factor : Rat)
    (reviews : Nat) :
    (13 / 10 : Rat) ≤ (sm2Step rating interval ease_factor reviews).2 := by
  unfold sm2Step
  split_ifs
  · exact le_max_left _ _
  all_goals exact ease_clamp_ge _

theorem reviewCard_not_found (cardId : Nat) (rating : Int) (now : Int)
    (s : DBState) (hfind : s.cards.find? (fun x => x.id == cardId) = none) :
    reviewCard cardId rating now s = .ok s := by
  unfold reviewCard
  rw [hfind]

theorem reviewCard_found (cardId : Nat) (rating : Int) (now : Int)
    (s : DBState) (c : CardRow)
    (hfind : s.cards.find? (fun x => x.id == cardId) = some c) :
    reviewCard cardId rating now s = .ok
      { s with
          cards := s.cards.map (fun x =>
            if x.id == cardId then
              { x with
                  next_review_due := now +
                    (sm2Step rating c.interval c.ease_factor c.reviews).1 *
                      86400000,
                  interval :=
                    (sm2Step rating c.interval c.ease_factor c.reviews).1,
                  ease_factor :=
                    (sm2Step rating c.interval c.ease_factor c.reviews).2,
                  reviews := x.reviews + 1 }
            else x),
          logs := s.logs ++ [⟨s.nextLogId, cardId, rating, now⟩],
          nextLogId := s.nextLogId + 1 } := by
  unfold reviewCard
  rw [hfind]

/-- C2: for every rating (any integer, including values outside 1..4) and
every starting card state, the ease_factor stored by `reviewCard` is
≥ 1.3. -/
theorem reviewCard_ease_floor (s : DBState) (cardId : Nat) (rating : Int)
    (now : Int) (s' : DBState) (h : reviewCard cardId rating now s = .ok s')
    (x : CardRow) (hx : x ∈ s'.cards) (hid : x.id = cardId) :
    (13 / 10 : Rat) ≤ x.ease_factor := by
  cases hfind : s.cards.find? (fun c => c.id == cardId) with
  | none =>
    rw [reviewCard_not_found _ _ _ _ hfind] at h
    cases h
    have := List.find?_eq_none.mp hfind x hx
    simp [hid] at this
  | some c =>
    rw [reviewCard_found _ _ _ _ c hfind] at h
    cases h
    obtain ⟨y, hy, hfy⟩ := List.mem_map.mp hx
    by_cases hyid : y.id = cardId
    · rw [if_pos (by simpa using hyid)] at hfy
      subst hfy
      exact sm2Step_ease_ge _ _ _ _
    · rw [if_neg (by simpa using hyid)] at hfy
      subst hfy
      exact absurd hid hyid

/-- C4: for every starting card state, `reviewCard` with rating 1 sets the
interval to 0, the ease_factor to `max(1.3, ease_factor − 0.2)` and
`next_review_due` to the review timestamp `now`. -/
theorem reviewCard_rating1_resets (s : DBState) (cardId : Nat) (now : Int)
    (c : CardRow) (hfind : s.cards.find? (fun x => x.id == cardId) = some c)
    (s' : DBState) (h : reviewCard cardId 1 now s = .ok s')
    (x : CardRow) (hx : x ∈ s'.cards) (hid : x.id = cardId) :
    x.interval = 0 ∧
    x.ease_factor = max (13 / 10 : Rat) (c.ease_factor - 2 / 10) ∧
    x.next_review_due = now := by
  rw [reviewCard_found _ _ _ _ c hfind] at h
  cases h
  obtain ⟨y, hy, hfy⟩ := List.mem_map.mp hx
  have hsm : sm2Step 1 c.interval c.ease_factor c.reviews =
      (0, max (13 / 10 : Rat) (c.ease_factor - 2 / 10)) := by
    unfold sm2Step
    rw [if_pos rfl]
  by_cases hyid : y.id = cardId
  · rw [if_pos (by simpa using hyid)] at hfy
    subst hfy
    refine ⟨by simp [hsm], by simp [hsm], by simp [hsm]⟩
  · rw [if_neg (by simpa using hyid)] at hfy
    subst hfy
    exact absurd hid hyid

/-! ### Concrete fixtures for the witnesses -/

def sampleDeck : DeckRow := ⟨1, "Deck", "", 0⟩

def sampleCard : CardRow := ⟨1, 1, "front", none, "back", none, 0, 0, 0, 5 / 2, 0⟩

def sampleState : DBState := ⟨[sampleDeck], [sampleCard], [], 2, 2, 1⟩

/-- `sampleState` after `reviewCard 1 3 100` (rating "Good"). -/
def sampleCardG : CardRow :=
  ⟨1, 1, "front", none, "back", none, 0, 86400100, 1, 5 / 2, 1⟩

def sampleStateG : DBState := ⟨[sampleDeck], [sampleCardG], [⟨1, 1, 3, 100⟩], 2, 2, 2⟩

/-- `sampleState` after `reviewCard 1 1 50` (rating "Again"). -/
def sampleCardA : CardRow :=
  ⟨1, 1, "front", none, "back", none, 0, 50, 0, max (13 / 10 : Rat) (5 / 2 - 2 / 10), 1⟩

def sampleStateA : DBState := ⟨[sampleDeck], [sampleCardA], [⟨1, 1, 1, 50⟩], 2, 2, 2⟩

theorem reviewCard_ease_floor_witness :
    (13 / 10 : Rat) ≤ sampleCardA.ease_factor :=
  reviewCard_ease_floor sampleState 1 1 50 sampleStateA rfl sampleCardA
    (List.mem_singleton_self _) rfl

theorem reviewCard_rating1_resets_witness :
    sampleCardA.interval = 0 ∧
    sampleCardA.ease_factor = max (13 / 10 : Rat) (sampleCard.ease_factor - 2 / 10) ∧
    sampleCardA.next_review_due = 50 :=
  reviewCard_rating1_resets sampleState 1 50 sampleCard rfl sampleStateA rfl
    sampleCardA (List.mem_singleton_self _) rfl

/-- C3: for every review with rating ≥ 2 the new interval depends on the
card's pre-update `reviews` count: 1 when it is zero, 6 when it is exactly
one, and otherwise `round(interval × ease_factor)` with ties rounded half
away from zero (for the store's nonnegative scheduling state the code's
`Math.round`, half toward +∞, coincides with half away from zero). -/
theorem reviewCard_interval_growth (s : DBState) (cardId : Nat) (rating : Int)
    (now : Int) (c : CardRow) (hr : 2 ≤ rating)
    (hfind : s.cards.find? (fun x => x.id == cardId) = some c)
    (hi : 0 ≤ c.interval) (he : 0 ≤ c.ease_factor)
    (s' : DBState) (h : reviewCard cardId rating now s = .ok s')
    (x : CardRow) (hx : x ∈ s'.cards) (hid : x.id = cardId) :
    x.interval = if c.reviews = 0 then 1 else if c.reviews = 1 then 6
      else roundHalfAwayFromZero ((c.interval : Rat) * c.ease_factor) := by
  rw [reviewCard_found _ _ _ _ c hfind] at h
  cases h
  obtain ⟨y, hy, hfy⟩ := List.mem_map.mp hx
  by_cases hyid : y.id = cardId
  case neg =>
    rw [if_neg (by simpa using hyid)] at hfy
    subst hfy
    exact absurd hid hyid
  rw [if_pos (by simpa using hyid)] at hfy
  subst hfy
  have hprod : (0 : Rat) ≤ (c.interval : Rat) * c.ease_factor :=
    mul_nonneg (by exact_mod_cast hi) he
  show (sm2Step rating c.interval c.ease_factor c.reviews).1 = _
  unfold sm2Step
  rw [if_neg (by omega : ¬ rating = 1)]
  unfold roundHalfAwayFromZero jsRound
  rw [if_pos hprod]

/-- C9: every `reviewCard` call on an existing card, for every rating,
increments that card's `reviews` count by exactly 1, appends exactly one
log row for that card, and leaves content fields and `created_at` (and
every other card) unchanged. -/
theorem reviewCard_frame (s : DBState) (cardId : Nat) (rating : Int)
    (now : Int) (c : CardRow)
    (hfind : s.cards.find? (fun x => x.id == cardId) = some c)
    (s' : DBState) (h : reviewCard cardId rating now s = .ok s')
    (i : Nat) (hi : i < s.cards.length) (hi2 : i < s'.cards.length) :
    s'.logs = s.logs ++ [⟨s.nextLogId, cardId, rating, now⟩] ∧
    s'.cards.length = s.cards.length ∧
    (s'.cards.get ⟨i, hi2⟩).front_text = (s.cards.get ⟨i, hi⟩).front_text ∧
    (s'.cards.get ⟨i, hi2⟩).front_image = (s.cards.get ⟨i, hi⟩).front_image ∧
    (s'.cards.get ⟨i, hi2⟩).back_text = (s.cards.get ⟨i, hi⟩).back_text ∧
    (s'.cards.get ⟨i, hi2⟩).back_image = (s.cards.get ⟨i, hi⟩).back_image ∧
    (s'.cards.get ⟨i, hi2⟩).created_at = (s.cards.get ⟨i, hi⟩).created_at ∧
    ((s.cards.get ⟨i, hi⟩).id = cardId →
      (s'.cards.get ⟨i, hi2⟩).reviews = (s.cards.get ⟨i, hi⟩).reviews + 1) ∧
    ((s.cards.get ⟨i, hi⟩).id ≠ cardId →
      s'.cards.get ⟨i, hi2⟩ = s.cards.get ⟨i, hi⟩) := by
  rw [reviewCard_found _ _ _ _ c hfind] at h
  cases h
  refine ⟨rfl, List.length_map _ _, ?_⟩
  have hget : ∀ (h2 : i < (s.cards.map (fun x =>
      if x.id == cardId then
        { x with
            next_review_due := now +
              (sm2Step rating c.interval c.ease_factor c.reviews).1 * 86400000,
            interval := (sm2Step rating c.interval c.ease_factor c.reviews).1,
            ease_factor := (sm2Step rating c.interval c.ease_factor c.reviews).2,
            reviews := x.reviews + 1 }
      else x)).length),
      (List.map _ s.cards).get ⟨i, h2⟩ = _ := fun h2 => List.get_map _
  rw [hget hi2]
  by_cases hcid : (s.cards.get ⟨i, hi⟩).id = cardId
  · rw [if_pos (by simpa using hcid)]
    exact ⟨rfl, rfl, rfl, rfl, rfl, fun _ => rfl, fun hne => absurd hcid hne⟩
  · rw [if_neg (by simpa using hcid)]
    exact ⟨rfl, rfl, rfl, rfl, rfl, fun heq => absurd heq hcid, fun _ => rfl⟩

/-- A card with two prior successful reviews (exercises the
`round(interval × ease_factor)` branch). -/
def sampleCardR : CardRow := ⟨1, 1, "front", none, "back", none, 0, 0, 6, 5 / 2, 2⟩

def sampleStateR : DBState := ⟨[sampleDeck], [sampleCardR], [], 2, 2, 1⟩

/-- `sampleStateR` after `reviewCard 1 3 100`. -/
def sampleCardR3 : CardRow :=
  ⟨1, 1, "front", none, "back", none, 0,
   100 + (sm2Step 3 6 (5 / 2) 2).1 * 86400000,
   (sm2Step 3 6 (5 / 2) 2).1, (sm2Step 3 6 (5 / 2) 2).2, 3⟩

def sampleStateR3 : DBState :=
  ⟨[sampleDeck], [sampleCardR3], [⟨1, 1, 3, 100⟩], 2, 2, 2⟩

theorem reviewCard_interval_growth_witness :
    sampleCardR3.interval = if sampleCardR.reviews = 0 then 1
      else if sampleCardR.reviews = 1 then 6
      else roundHalfAwayFromZero
        ((sampleCardR.interval : Rat) * sampleCardR.ease_factor) :=
  reviewCard_interval_growth sampleStateR 1 3 100 sampleCardR (by decide) rfl
    (by decide) (by norm_num [sampleCardR]) sampleStateR3 rfl sampleCardR3
    (List.mem_singleton_self _) rfl

theorem reviewCard_frame_witness :
    sampleStateA.logs = sampleState.logs ++ [⟨sampleState.nextLogId, 1, 1, 50⟩] ∧
    sampleStateA.cards.length = sampleState.cards.length ∧
    (sampleStateA.cards.get ⟨0, by decide⟩).front_text =
      (sampleState.cards.get ⟨0, by decide⟩).front_text ∧
    (sampleStateA.cards.get ⟨0, by decide⟩).front_image =
      (sampleState.cards.get ⟨0, by decide⟩).front_image ∧
    (sampleStateA.cards.get ⟨0, by decide⟩).back_text =
      (sampleState.cards.get ⟨0, by decide⟩).back_text ∧
    (sampleStateA.cards.get ⟨0, by decide⟩).back_image =
      (sampleState.cards.get ⟨0, by decide⟩).back_image ∧
    (sampleStateA.cards.get ⟨0, by decide⟩).created_at =
      (sampleState.cards.get ⟨0, by decide⟩).created_at ∧
    ((sampleState.cards.get ⟨0, by decide⟩).id = 1 →
      (sampleStateA.cards.get ⟨0, by decide⟩).reviews =
        (sampleState.cards.get ⟨0, by decide⟩).reviews + 1) ∧
    ((sampleState.cards.get ⟨0, by decide⟩).id ≠ 1 →
      sampleStateA.cards.get ⟨0, by decide⟩ = sampleState.cards.get ⟨0, by decide⟩) :=
  reviewCard_frame sampleState 1 1 50 sampleCard rfl sampleStateA rfl 0
    (by decide) (by decide)

/-- C6: `deleteDeck id` removes the deck with that id, all cards whose
`deck_id` is that id, and all logs belonging to those cards, leaving
everything else unchanged; when no deck has that id it is a no-op raising
no error.  The hypothesis is the referential-integrity invariant the
engine enforces on insert (every card references an existing deck). -/
theorem deleteDeck_cascades (s : DBState) (id : Nat)
    (hint : ∀ c ∈ s.cards, ∃ d ∈ s.decks, d.id = c.deck_id) :
    (∀ d : DeckRow, d ∈ (deleteDeck id s).decks ↔ d ∈ s.decks ∧ d.id ≠ id) ∧
    (∀ c : CardRow, c ∈ (deleteDeck id s).cards ↔ c ∈ s.cards ∧ c.deck_id ≠ id) ∧
    (∀ l : LogRow, l ∈ (deleteDeck id s).logs ↔
      l ∈ s.logs ∧ ∀ c ∈ s.cards, c.id = l.card_id → c.deck_id ≠ id) ∧
    ((∀ d ∈ s.decks, d.id ≠ id) → deleteDeck id s = s) := by
  refine ⟨?_, ?_, ?_, ?_⟩
  · intro d
    simp [deleteDeck, List.mem_filter]
  · intro c
    simp only [deleteDeck, List.mem_filter, Bool.not_eq_eq_eq_not, Bool.not_true,
      List.any_eq_false, List.mem_filter, beq_iff_eq]
    constructor
    · rintro ⟨hc, hno⟩
      refine ⟨hc, fun heq => ?_⟩
      obtain ⟨d, hd, hdid⟩ := hint c hc
      exact hno d ⟨hd, by omega⟩ (by omega)
    · rintro ⟨hc, hne⟩
      exact ⟨hc, fun d hd => by omega⟩
  · intro l
    simp only [deleteDeck, List.mem_filter, Bool.not_eq_eq_eq_not, Bool.not_true,
      List.any_eq_false, List.mem_filter, List.any_eq_true, beq_iff_eq]
    constructor
    · rintro ⟨hl, hno⟩
      refine ⟨hl, fun c hc hcl hdeck => ?_⟩
      obtain ⟨d, hd, hdid⟩ := hint c hc
      exact hno c ⟨hc, d, ⟨hd, by omega⟩, by omega⟩ hcl
    · rintro ⟨hl, hgood⟩
      refine ⟨hl, fun c hc hcl => ?_⟩
      obtain ⟨hcmem, d, hdmem, hdid⟩ := hc
      exact hgood c hcmem hcl (by omega)
  · intro hno
    have hdel : s.decks.filter (fun d => d.id == id) = [] := by
      simp only [List.filter_eq_nil_iff, beq_iff_eq]
      exact hno
    have hdecks : s.decks.filter (fun d => !(d.id == id)) = s.decks := by
      rw [List.filter_eq_self]
      intro d hd
      simpa using hno d hd
    unfold deleteDeck
    rw [hdel, hdecks]
    simp

def wDelDeck : DeckRow := ⟨1, "A", "", 0⟩

def wDelDeck2 : DeckRow := ⟨2, "B", "", 0⟩

def wDelCard : CardRow := ⟨1, 1, "f", none, "b", none, 0, 0, 0, 5 / 2, 0⟩

def wDelLog : LogRow := ⟨1, 1, 3, 0⟩

def wDelState : DBState := ⟨[wDelDeck, wDelDeck2], [wDelCard], [wDelLog], 3, 2, 2⟩

theorem deleteDeck_cascades_witness :
    (wDelDeck ∈ (deleteDeck 1 wDelState).decks ↔
      wDelDeck ∈ wDelState.decks ∧ wDelDeck.id ≠ 1) ∧
    (wDelCard ∈ (deleteDeck 1 wDelState).cards ↔
      wDelCard ∈ wDelState.cards ∧ wDelCard.deck_id ≠ 1) ∧
    (wDelLog ∈ (deleteDeck 1 wDelState).logs ↔
      wDelLog ∈ wDelState.logs ∧
        ∀ c ∈ wDelState.cards, c.id = wDelLog.card_id → c.deck_id ≠ 1) :=
  have T := deleteDeck_cascades wDelState 1 (by decide)
  ⟨T.1 wDelDeck, T.2.1 wDelCard, T.2.2.1 wDelLog⟩

/-- C7 counterexample: `reviewCard` on a card id that does not exist
resolves normally with the state unchanged — it does not surface
`NotFoundError` (src/db.ts line 341 is a silent `return`). -/
theorem reviewCard_missing_card_silent :
    reviewCard 1 3 0 DBState.empty = .ok DBState.empty ∧
    reviewCard 1 3 0 DBState.empty ≠ .error DBError.notFound := by
  refine ⟨rfl, ?_⟩
  intro h
  rw [show reviewCard 1 3 0 DBState.empty = .ok DBState.empty from rfl] at h
  exact Except.noConfusion h

/-- C7 amended: an operation referencing a nonexistent id performs no
mutation, but the failure mode differs by operation: `createCard` with a
nonexistent `deck_id` fails (the engine's foreign-key violation, inserting
nothing), while `reviewCard` with a nonexistent card id is a silent no-op
that raises no error and changes nothing. -/
theorem missing_id_no_mutation (s : DBState) (deckId cardId : Nat)
    (rating : Int) (ft bt : Option String) (fi bi : Option (List Nat))
    (now : Int)
    (hdeck : ∀ d ∈ s.decks, d.id ≠ deckId)
    (hcard : ∀ c ∈ s.cards, c.id ≠ cardId) :
    createCard deckId ft fi bt bi now s = .error .fkViolation ∧
    reviewCard cardId rating now s = .ok s := by
  constructor
  · have hany : (s.decks.any (fun d => d.id == deckId)) = false := by
      simp only [List.any_eq_false, beq_iff_eq]
      exact hdeck
    unfold createCard
    rw [hany]
    simp
  · exact reviewCard_not_found _ _ _ _
      (List.find?_eq_none.mpr (fun c hc => by simpa using hcard c hc))

theorem missing_id_no_mutation_witness :
    createCard 7 (some "x") none (some "y") none 0 sampleState =
      .error .fkViolation ∧
    reviewCard 9 3 0 sampleState = .ok sampleState :=
  missing_id_no_mutation sampleState 7 9 3 (some "x") (some "y") none none 0
    (by decide) (by decide)

/-- C8: `importDeck` fails with a format error — creating no deck and
writing nothing — when the input is not parseable as JSON (`none`) or the
parsed document lacks a `name` or a `cards` array. -/
theorem importDeck_rejects_malformed (s : DBState) (now : Int)
    (d : ImportDoc) (hd : d.name = none ∨ d.cards = none) :
    importDeck none now s = (s, some .formatInvalid) ∧
    importDeck (some d) now s = (s, some .formatInvalidDeck) := by
  refine ⟨rfl, ?_⟩
  simp only [importDeck]
  rcases hd with hname | hcards
  · rw [hname]
    rfl
  · rw [hcards]
    simp

theorem importDeck_rejects_malformed_witness :
    importDeck none 0 DBState.empty = (DBState.empty, some .formatInvalid) ∧
    importDeck (some ⟨none, none, none⟩) 0 DBState.empty =
      (DBState.empty, some .formatInvalidDeck) :=
  importDeck_rejects_malformed DBState.empty 0 ⟨none, none, none⟩ (Or.inl rfl)

/-- C10 counterexample: `createDeck` performs no validation at all — the
empty name `""` (which is empty after trimming) is accepted and a deck
row is inserted, contradicting "fails with ValidationError, performing no
mutation". -/
theorem createDeck_accepts_empty_name :
    (createDeck "" "" 0 DBState.empty).2.decks = [⟨1, "", "", 0⟩] ∧
    (createDeck "" "" 0 DBState.empty).2 ≠ DBState.empty := by
  refine ⟨rfl, ?_⟩
  intro h
  exact absurd (congrArg (fun t => t.decks.length) h) (by decide)

/-- C10 amended: `createDeck` accepts every name (validation of emptiness
is done only by the caller/UI); it unconditionally inserts a deck carrying
the given name, description and current timestamp, under an id that is
fresh (distinct from every stored deck id, given the AUTOINCREMENT
invariant that stored ids are below the sequence counter). -/
theorem createDeck_unvalidated_fresh (name description : String) (now : Int)
    (s : DBState) (h : ∀ d ∈ s.decks, d.id < s.nextDeckId) :
    ¬ ((createDeck name description now s).1 ∈ s.decks.map (fun d => d.id)) ∧
    (createDeck name description now s).2.decks =
      s.decks ++ [⟨(createDeck name description now s).1, name, description, now⟩] := by
  constructor
  · intro hmem
    obtain ⟨d, hd, hdid⟩ := List.mem_map.mp hmem
    exact absurd hdid (Nat.ne_of_lt (h d hd))
  · rfl

theorem createDeck_unvalidated_fresh_witness :
    ¬ ((createDeck "" "desc" 7 sampleState).1 ∈
      sampleState.decks.map (fun d => d.id)) ∧
    (createDeck "" "desc" 7 sampleState).2.decks =
      sampleState.decks ++ [⟨(createDeck "" "desc" 7 sampleState).1, "", "desc", 7⟩] :=
  createDeck_unvalidated_fresh "" "desc" 7 sampleState (by decide)

/-- A bundle whose single card carries an invalid base64 image: the
insertion loop throws (`atob` InvalidCharacterError) after the deck was
already created outside the transaction. -/
def badBundle : ImportDoc := ⟨some "A", none, some [⟨none, none, some "!", none⟩]⟩

/-- C1 counterexample: when a card insertion fails, `importDeck` re-throws
after `ROLLBACK`, but the deck created by `createDeck` *before*
`BEGIN TRANSACTION` survives: the store is not "exactly what it was
before the call" — an empty deck `"A (Import)"` is left behind. -/
theorem importDeck_leaves_partial_deck :
    (importDeck (some badBundle) 0 DBState.empty).2 = some DBError.invalidChar ∧
    (importDeck (some badBundle) 0 DBState.empty).1.decks =
      [⟨1, "A (Import)", "", 0⟩] ∧
    (importDeck (some badBundle) 0 DBState.empty).1 ≠ DBState.empty := by
  refine ⟨rfl, rfl, ?_⟩
  intro h
  exact absurd (congrArg (fun t => t.decks.length) h) (by decide)

/-- C1 amended: if any card insertion fails during `importDeck`, the
transaction rolls back all card insertions — no cards and no logs are
left behind and the pre-existing decks are untouched — but the new deck
created before the transaction remains, as an empty deck; the error is
re-thrown. -/
theorem importDeck_rolls_back_cards (s : DBState) (now : Int) (d : ImportDoc)
    (e : DBError) (hname : jsTruthyStr d.name = true)
    (hcards : d.cards.isNone = false)
    (herr : insertImportCards s.nextDeckId now (d.cards.getD [])
      (createDeck ((d.name.getD "") ++ " (Import)") (d.description.getD "") now s).2 =
      .error e) :
    importDeck (some d) now s =
      ({ s with
           decks := s.decks ++ [⟨s.nextDeckId, (d.name.getD "") ++ " (Import)",
             d.description.getD "", now⟩],
           nextDeckId := s.nextDeckId + 1 }, some e) := by
  simp only [importDeck, hname, hcards, Bool.not_true, Bool.false_or,
    Bool.false_eq_true, if_false]
  rw [show (createDeck ((d.name.getD "") ++ " (Import)") (d.description.getD "") now s).1 =
    s.nextDeckId from rfl, herr]
  rfl

theorem importDeck_rolls_back_cards_witness :
    importDeck (some badBundle) 0 DBState.empty =
      ({ DBState.empty with
           decks := DBState.empty.decks ++ [⟨DBState.empty.nextDeckId,
             (badBundle.name.getD "") ++ " (Import)",
             badBundle.description.getD "", 0⟩],
           nextDeckId := DBState.empty.nextDeckId + 1 }, some DBError.invalidChar) :=
  importDeck_rolls_back_cards DBState.empty 0 badBundle DBError.invalidChar
    rfl rfl rfl

/-! ### Base64 round-trip -/

theorem b64idx_b64chr_fin : ∀ n : Fin 64, b64idx (b64chr n.val) = some n.val := by
  decide

theorem b64idx_b64chr {n : Nat} (h : n < 64) : b64idx (b64chr n) = some n :=
  b64idx_b64chr_fin ⟨n, h⟩

theorem b64chr_pad_fin : ∀ n : Fin 64, (b64chr n.val == '=') = false := by
  decide

theorem b64chr_ne_pad {n : Nat} (h : n < 64) : (b64chr n == '=') = false :=
  b64chr_pad_fin ⟨n, h⟩

/-- Decoding inverts encoding on byte sequences. -/
theorem b64decode_b64encode : ∀ (bs : List Nat), (∀ b ∈ bs, b < 256) →
    b64decode (b64encode bs) = some bs
  | [], _ => rfl
  | [a], h => by
    have ha : a < 256 := h a (by simp)
    have h1 := b64idx_b64chr (by omega : a / 4 < 64)
    have h2 := b64idx_b64chr (by omega : a % 4 * 16 < 64)
    show b64decode [b64chr (a / 4), b64chr (a % 4 * 16), '=', '='] = some [a]
    simp [b64decode, h1, h2]
    omega
  | [a, b], h => by
    have ha : a < 256 := h a (by simp)
    have hb : b < 256 := h b (by simp)
    have h1 := b64idx_b64chr (by omega : a / 4 < 64)
    have h2 := b64idx_b64chr (by omega : a % 4 * 16 + b / 16 < 64)
    have h3 := b64idx_b64chr (by omega : b % 16 * 4 < 64)
    have p3 := b64chr_ne_pad (by omega : b % 16 * 4 < 64)
    show b64decode [b64chr (a / 4), b64chr (a % 4 * 16 + b / 16),
      b64chr (b % 16 * 4), '='] = some [a, b]
    simp [b64decode, h1, h2, h3, p3]
    omega
  | a :: b :: c :: rest, h => by
    have ha : a < 256 := h a (by simp)
    have hb : b < 256 := h b (by simp)
    have hc : c < 256 := h c (by simp)
    have ih := b64decode_b64encode rest (fun x hx => h x (by simp [hx]))
    have h1 := b64idx_b64chr (by omega : a / 4 < 64)
    have h2 := b64idx_b64chr (by omega : a % 4 * 16 + b / 16 < 64)
    have h3 := b64idx_b64chr (by omega : b % 16 * 4 + c / 64 < 64)
    have h4 := b64idx_b64chr (by omega : c % 64 < 64)
    have p3 := b64chr_ne_pad (by omega : b % 16 * 4 + c / 64 < 64)
    have p4 := b64chr_ne_pad (by omega : c % 64 < 64)
    show b64decode (b64chr (a / 4) :: b64chr (a % 4 * 16 + b / 16) ::
      b64chr (b % 16 * 4 + c / 64) :: b64chr (c % 64) :: b64encode rest) =
      some (a :: b :: c :: rest)
    simp [b64decode, h1, h2, h3, h4, p3, p4, ih]
    refine ⟨by omega, by omega, by omega⟩

theorem b64encode_ne_nil (bs : List Nat) (h : bs ≠ []) : b64encode bs ≠ [] := by
  match bs with
  | [] => exact absurd rfl h
  | [a] => simp [b64encode]
  | [a, b] => simp [b64encode]
  | a :: b :: c :: rest => simp [b64encode]

theorem u8ToBase64_ne_empty (bs : List Nat) (h : bs ≠ []) :
    (u8ToBase64 bs == "") = false := by
  rw [beq_eq_false_iff_ne]
  intro heq
  apply b64encode_ne_nil bs h
  have hdata := congrArg String.data heq
  simpa [u8ToBase64] using hdata

/-- A stored image buffer that survives the export/import truthiness
checks: absent, or nonempty with byte values (a zero-length `Uint8Array`
encodes to `""`, which is falsy on import). -/
def GoodImage : Option (List Nat) → Prop
  | none => True
  | some bs => bs ≠ [] ∧ ∀ b ∈ bs, b < 256

theorem importImage_exportImage (img : Option (List Nat)) (h : GoodImage img) :
    importImage (exportImage img) = .ok img := by
  cases img with
  | none => rfl
  | some bs =>
    obtain ⟨hne, hlt⟩ := h
    show (if (u8ToBase64 bs == "") = true then Except.ok none
      else (base64ToU8 (u8ToBase64 bs)).map some) = Except.ok (some bs)
    rw [u8ToBase64_ne_empty bs hne]
    simp only [Bool.false_eq_true, if_false]
    show (base64ToU8 (u8ToBase64 bs)).map some = .ok (some bs)
    unfold base64ToU8 u8ToBase64
    rw [show (String.mk (b64encode bs)).toList = b64encode bs from rfl,
      b64decode_b64encode bs hlt]
    rfl

/-- The rows a successful import materializes from a deck's cards
(spec §4.4): identical content, fresh default scheduling state, due at
the import timestamp, consecutive fresh ids. -/
def freshImportOf (deckId : Nat) (now : Int) : Nat → List CardRow → List CardRow
  | _, [] => []
  | cid, c :: rest =>
    ⟨cid, deckId, c.front_text, c.front_image, c.back_text, c.back_image,
      now, now, 0, 5 / 2, 0⟩ :: freshImportOf deckId now (cid + 1) rest

theorem insertImportCards_export (deckId : Nat) (now : Int) :
    ∀ (cs : List CardRow) (s0 : DBState),
    (∀ c ∈ cs, GoodImage c.front_image ∧ GoodImage c.back_image) →
    insertImportCards deckId now (cs.map exportBundleCard) s0 =
      .ok { s0 with
              cards := s0.cards ++ freshImportOf deckId now s0.nextCardId cs,
              nextCardId := s0.nextCardId + cs.length }
  | [], s0, _ => by
    show Except.ok s0 = _
    simp [freshImportOf]
  | c :: rest, s0, h => by
    have hf := importImage_exportImage c.front_image (h c (by simp)).1
    have hb := importImage_exportImage c.back_image (h c (by simp)).2
    show insertImportCards deckId now
      (exportBundleCard c :: rest.map exportBundleCard) s0 = _
    rw [insertImportCards]
    dsimp only [exportBundleCard]
    rw [hf, hb]
    dsimp only
    rw [insertImportCards_export deckId now rest _ (fun x hx => h x (by simp [hx]))]
    simp only [Except.ok.injEq]
    congr 1
    · simp [importCardRow, freshImportOf]
    · simp only [List.length_cons]
      omega

/-- C5 amended: for every deck with a nonempty name whose cards' images
are each absent or nonempty, importing the output of `exportDeck` creates
a new deck (suffixed `" (Import)"`, same description) whose cards have
`front_text`/`back_text`/image bytes identical to the original cards
(base64 round-trips the bytes exactly), and whose scheduling state is
reset to the defaults `reviews=0, interval=0, ease_factor=2.5,
next_review_due=` import time; everything already in the store is left
unchanged.  (A deck named `""` is rejected by import's truthiness check,
and a zero-length image encodes to `""`, which import maps to NULL —
hence the two hypotheses.) -/
theorem export_import_roundtrip (s : DBState) (id : Nat) (now1 now2 : Int)
    (deck : DeckRow) (hfind : s.decks.find? (fun d => d.id == id) = some deck)
    (hname : deck.name ≠ "")
    (himg : ∀ c ∈ getCards id s, GoodImage c.front_image ∧ GoodImage c.back_image)
    (doc : ExportDoc) (hexp : exportDeck id now1 s = .ok doc) :
    importDeck (some (docOfExport doc)) now2 s =
      ({ s with
           decks := s.decks ++ [⟨s.nextDeckId, deck.name ++ " (Import)",
             deck.description, now2⟩],
           cards := s.cards ++
             freshImportOf s.nextDeckId now2 s.nextCardId (getCards id s),
           nextDeckId := s.nextDeckId + 1,
           nextCardId := s.nextCardId + (getCards id s).length }, none) := by
  unfold exportDeck at hexp
  rw [hfind] at hexp
  injection hexp with hdoc
  subst hdoc
  have htru : jsTruthyStr (some deck.name) = true := by
    simp [jsTruthyStr, hname]
  simp only [importDeck, docOfExport, htru, Bool.not_true, Option.isNone_some,
    Bool.false_or, Bool.false_eq_true, if_false, Option.getD_some]
  rw [show (createDeck (deck.name ++ " (Import)") deck.description now2 s).1 =
    s.nextDeckId from rfl]
  rw [insertImportCards_export s.nextDeckId now2 (getCards id s) _ himg]
  rfl

/-- A card carrying a zero-length image buffer. -/
def cexCard : CardRow := ⟨1, 1, "f", some [], "b", none, 0, 0, 0, 5 / 2, 0⟩

def cexState : DBState := ⟨[⟨1, "D", "", 0⟩], [cexCard], [], 2, 2, 1⟩

/-- What `exportDeck 1` produces on `cexState`: the empty buffer encodes
to the empty string. -/
def cexDoc : ExportDoc := ⟨"D", "", 1, 5, [⟨some "f", some "b", some "", none⟩]⟩

/-- C5 counterexample: a zero-length image does not round-trip.  The
original card stores `some []` (an empty `Uint8Array`, truthy in JS, so
it is exported as `""`), but on import `""` is falsy, so the imported
card of the new deck (deck id 2) stores NULL — the image bytes are not
identical to the original's. -/
theorem export_import_cex :
    exportDeck 1 5 cexState = .ok cexDoc ∧
    cexCard.front_image = some [] ∧
    (importDeck (some (docOfExport cexDoc)) 9 cexState).2 = none ∧
    ((importDeck (some (docOfExport cexDoc)) 9 cexState).1.cards.map
      (fun c => (c.deck_id, c.front_image))) = [(1, some []), (2, none)] ∧
    (some [] : Option (List Nat)) ≠ none := by
  exact ⟨rfl, rfl, rfl, rfl, by simp⟩

def wExpDeck : DeckRow := ⟨1, "D", "desc", 0⟩

def wExpCard : CardRow := ⟨1, 1, "f", some [7, 255], "b", none, 0, 0, 0, 5 / 2, 0⟩

def wExpState : DBState := ⟨[wExpDeck], [wExpCard], [], 2, 2, 1⟩

def wExpDoc : ExportDoc :=
  ⟨"D", "desc", 1, 5, [⟨some "f", some "b", some (u8ToBase64 [7, 255]), none⟩]⟩

theorem export_import_roundtrip_witness :
    importDeck (some (docOfExport wExpDoc)) 9 wExpState =
      ({ wExpState with
           decks := wExpState.decks ++ [⟨wExpState.nextDeckId,
             wExpDeck.name ++ " (Import)", wExpDeck.description, 9⟩],
           cards := wExpState.cards ++
             freshImportOf wExpState.nextDeckId 9 wExpState.nextCardId
               (getCards 1 wExpState),
           nextDeckId := wExpState.nextDeckId + 1,
           nextCardId := wExpState.nextCardId + (getCards 1 wExpState).length },
       none) :=
  export_import_roundtrip wExpState 1 5 9 wExpDeck rfl (by decide)
    (by
      intro c hc
      simp [getCards, wExpState, wExpCard] at hc
      subst hc
      exact ⟨⟨by simp, by decide⟩, trivial⟩)
    wExpDoc rfl
